import Mathlib

/-!
Shallow embedding of the InsightFlow frontend (React client) and, where the
backend is absent from the sources, spec-modelled pieces of the research /
chat pipeline.  Each client function is translated from the JavaScript in
`frontend/src/services/api.js`, `frontend/src/components/ResearchForm.jsx`
(with the `Visualization` component), `frontend/src/components/ChatInterface.jsx`
and `frontend/src/App.jsx`.  JavaScript objects crossing the HTTP boundary are
modelled by a small JSON value type; absent object properties evaluate to
`undefined`, as in JavaScript.
-/

namespace Insightflow

/-- JSON-ish JavaScript value: `jundef` models `undefined` (the result of
reading an absent property), `jnull` models `null`. -/
inductive Json where
  | jnull
  | jundef
  | jbool (b : Bool)
  | jnum (n : Int)
  | jstr (s : String)
  | jobj (fields : List (String × Json))

/-- JavaScript property read `v[k]`: on an object returns the field value or
`undefined` when the key is absent; on any non-object the paths embedded here
never read properties, so they are mapped to `undefined`. -/
def Json.getField : Json → String → Json
  | Json.jobj fields, k => (fields.lookup k).getD Json.jundef
  | _, _ => Json.jundef

/-- JavaScript truthiness of a value, as used in `if (!data)` and `x || y`. -/
def Json.truthy : Json → Bool
  | Json.jnull => false
  | Json.jundef => false
  | Json.jbool b => b
  | Json.jnum n => n != 0
  | Json.jstr s => s != ""
  | Json.jobj _ => true

/-- Whitespace recognised by JavaScript `String.prototype.trim` (restricted to
the ASCII whitespace actually relevant to user input). -/
def isJsWhitespace (c : Char) : Bool :=
  c == ' ' || c == '\t' || c == '\n' || c == '\r'

/-- JavaScript `s.trim()`: drop whitespace from both ends. -/
def jsTrim (s : String) : String :=
  String.mk (List.rdropWhile isJsWhitespace (List.dropWhile isJsWhitespace s.data))

/-! ## API client (`frontend/src/services/api.js`)

Each exported function builds one HTTP request against the backend and
returns `response.data`, the parsed response body. -/

inductive HttpMethod where
  | get
  | post
  | delete
deriving DecidableEq, Repr

/-- Body of the `POST /chat/` request built by `sendChatMessage`: the object
literal `{ company_name: companyName, prompt: prompt }` — these two fields and
nothing else (in particular no history of prior turns). -/
structure ChatRequestBody where
  company_name : String
  prompt : String
deriving DecidableEq, Repr

structure ChatRequest where
  method : HttpMethod
  path : String
  body : ChatRequestBody
deriving DecidableEq, Repr

/-- `sendChatMessage(companyName, prompt)`: `api.post('/chat/', { company_name, prompt })`. -/
def sendChatMessage (companyName prompt : String) : ChatRequest :=
  { method := HttpMethod.post
    path := "/chat/"
    body := { company_name := companyName, prompt := prompt } }

structure ResearchRequestBody where
  company_name : String
deriving DecidableEq, Repr

structure ResearchRequest where
  method : HttpMethod
  path : String
  body : ResearchRequestBody
deriving DecidableEq, Repr

/-- `researchCompany(companyName)`: `api.post('/research/', { company_name })`. -/
def researchCompany (companyName : String) : ResearchRequest :=
  { method := HttpMethod.post
    path := "/research/"
    body := { company_name := companyName } }

/-- A body-less request, as built by `resetCompany` and the GET helpers. -/
structure HttpRequest where
  method : HttpMethod
  path : String
deriving DecidableEq, Repr

/-- `resetCompany(companyName)`: ``api.delete(`/reset/${companyName}`)`` —
the company name is interpolated into the path. -/
def resetCompany (companyName : String) : HttpRequest :=
  { method := HttpMethod.delete, path := "/reset/" ++ companyName }

/-- An axios response; every api.js helper returns its `data` field. -/
structure AxiosResponse where
  status : Nat
  data : Json

/-- What `resetCompany` returns to its caller: `response.data`, the
acknowledgement body. -/
def resetCompanyReturn (response : AxiosResponse) : Json :=
  response.data

/-- What `researchCompany` returns to its caller: `response.data`. -/
def researchCompanyReturn (response : AxiosResponse) : Json :=
  response.data

/-! ## ResearchForm (`frontend/src/components/ResearchForm.jsx`)

`handleSubmit` starts a `setInterval` timer that steps the displayed
progress string through a fixed local list every 3000 ms while the single
`POST /research/` request is in flight. -/

/-- The `simulateProgress` array of `handleSubmit` (lines 20–27). -/
def simulateProgress : List String :=
  [ "Searching for company data..."
  , "Planning data collection strategy..."
  , "Fetching from multiple sources..."
  , "Cleaning and processing data..."
  , "Storing in vector database..."
  , "Generating insights and summary..." ]

/-- State of the `ResearchForm` component: its four `useState` hooks plus the
interval-callback state (`currentStep`, and whether the interval is running). -/
structure FormState where
  companyName : String
  loading : Bool
  error : String
  progress : String
  currentStep : Nat
  timerActive : Bool
deriving DecidableEq, Repr

def initialFormState : FormState :=
  { companyName := "", loading := false, error := "", progress := "",
    currentStep := 0, timerActive := false }

/-- The synchronous part of `handleSubmit` (lines 12–35): guard on the trimmed
company name, then set loading, clear the error, show the initial progress
string and start the interval timer. -/
def submitResearch (s : FormState) : FormState :=
  if jsTrim s.companyName = "" then s
  else
    { s with loading := true, error := "", progress := "Initializing AI agents...",
             currentStep := 0, timerActive := true }

/-- One firing of the interval callback (lines 30–35): while steps remain,
display the next string of `simulateProgress` and advance the counter. -/
def progressTick (s : FormState) : FormState :=
  if s.timerActive ∧ s.currentStep < simulateProgress.length then
    { s with progress := simulateProgress.getD s.currentStep "",
             currentStep := s.currentStep + 1 }
  else s

/-- The payload handed to `onResearchComplete` (line 43): the `viz_data`
property of the response body, not the body itself. -/
def researchSuccessPayload (response : Json) : Json :=
  response.getField "viz_data"

/-- Continuation after `researchCompany` resolves (lines 39–44): clear the
interval, show the completion string, and (after a 500 ms delay) call
`onResearchComplete(companyName, response.viz_data)`; `finally` clears
loading. The second component is the argument pair of that call. -/
def researchResolve (s : FormState) (response : Json) :
    FormState × (String × Json) :=
  ( { s with timerActive := false, progress := "Research complete!", loading := false }
  , (s.companyName, researchSuccessPayload response) )

/-- Continuation after `researchCompany` rejects (lines 46–51): set the error
message, clear the progress string, clear loading. The interval is *not*
cleared on this path (`clearInterval` is only reached on success). -/
def researchReject (s : FormState) (message : String) : FormState :=
  { s with error := message, progress := "", loading := false }

/-! ## Visualization (`frontend/src/components/Visualization.jsx`) -/

/-- `name.charAt(0).toUpperCase() + name.slice(1)` of the chart-entry mapper. -/
def capitalizeSB (s : String) : String :=
  match s.data with
  | [] => ""
  | c :: rest => String.mk (c.toUpper :: rest)

/-- `Object.entries(sources_breakdown || {})`: the entry list of the
breakdown when it is a truthy object, `[]` otherwise. -/
def visualizationEntries (sb : Json) : List (String × Json) :=
  match (if sb.truthy then sb else Json.jobj []) with
  | Json.jobj fields => fields
  | _ => []

/-- What the `Visualization` component renders from its inputs: the summary
and total shown, the pie-chart data list and the per-source stats rows. -/
structure RenderedViz where
  summary : Json
  total_sources : Json
  chartData : List (String × Json)
  statsList : List (String × Json)

/-- The `Visualization` component as a function of its `data` prop:
`if (!data) return null`, else destructure `{summary, sources_breakdown,
total_sources}` and build the chart entries and stats rows. -/
def Visualization (data : Json) : Option RenderedViz :=
  if data.truthy = false then none
  else
    let sb := data.getField "sources_breakdown"
    let entries := visualizationEntries sb
    some { summary := data.getField "summary"
           total_sources := data.getField "total_sources"
           chartData := entries.map (fun p => (capitalizeSB p.1, p.2))
           statsList := entries }

/-! ## ChatInterface (`frontend/src/components/ChatInterface.jsx`) -/

inductive Role where
  | user
  | assistant
deriving DecidableEq, Repr

def Role.other : Role → Role
  | Role.user => Role.assistant
  | Role.assistant => Role.user

structure ChatMessage where
  role : Role
  content : String
deriving DecidableEq, Repr

/-- The two backend failure kinds the spec distinguishes for a chat call:
the company was never researched (`notFound`) versus an unreachable
embedding / LLM dependency (`dependencyFailure`). -/
inductive ChatError where
  | notFound
  | dependencyFailure
deriving DecidableEq, Repr

/-- Body of a successful `POST /chat/` response: `{response}`. -/
structure ChatResponse where
  response : String
deriving DecidableEq, Repr

/-- The initial assistant greeting seeded into the message list. -/
def chatGreeting (company : String) : ChatMessage :=
  { role := Role.assistant
    content := "Hi! I\x27ve analyzed all the research data for " ++ company ++
               ". Ask me anything about the company!" }

/-- Fixed assistant message appended by the `catch` block of `handleSubmit`
for every failed chat call (the caught error value is not inspected). -/
def apologyMessage : String :=
  "Sorry, I encountered an error processing your request. Please try again."

/-- State of the `ChatInterface` component: `messages`, `input`, `loading`. -/
structure ChatState where
  messages : List ChatMessage
  input : String
  loading : Bool
deriving DecidableEq, Repr

def initialChatState (company : String) : ChatState :=
  { messages := [chatGreeting company], input := "", loading := false }

/-- Synchronous part of the chat `handleSubmit` (lines 24–34): guard on the
trimmed input and the loading flag; otherwise clear the input, append the
user message, set loading, and send `POST /chat/ {company_name, prompt}`.
The second component is the request issued, if any. -/
def startChatSubmit (s : ChatState) (company : String) :
    ChatState × Option ChatRequest :=
  if jsTrim s.input = "" ∨ s.loading then (s, none)
  else
    let userMessage := jsTrim s.input
    ( { messages := s.messages ++ [{ role := Role.user, content := userMessage }]
        input := ""
        loading := true }
    , some (sendChatMessage company userMessage) )

/-- Continuation once the chat call settles (lines 35–50): append the
assistant response on success, the fixed apology on failure; `finally`
clears the loading flag. -/
def finishChatSubmit (s : ChatState) (result : Except ChatError ChatResponse) :
    ChatState :=
  { s with
      messages := s.messages ++
        [{ role := Role.assistant
           content := match result with
                      | Except.ok r => r.response
                      | Except.error _ => apologyMessage }]
      loading := false }

/-- A chat submission run to completion: the synchronous part followed, when
a request was actually issued, by the settling continuation. -/
def completeChatSubmit (s : ChatState) (company : String)
    (result : Except ChatError ChatResponse) : ChatState × Option ChatRequest :=
  match startChatSubmit s company with
  | (s1, none) => (s1, none)
  | (s1, some req) => (finishChatSubmit s1 result, some req)

/-- A sequence of completed chat submissions: before each one the user types
`typed` into the input field, then submits, and the call settles as `result`. -/
def runChat (company : String) (s : ChatState) :
    List (String × Except ChatError ChatResponse) → ChatState
  | [] => s
  | (typed, result) :: rest =>
      runChat company (completeChatSubmit { s with input := typed } company result).1 rest

/-- Check that a message list alternates roles, starting with `expected`. -/
def altFrom : Role → List ChatMessage → Bool
  | _, [] => true
  | expected, m :: rest => (m.role == expected) && altFrom expected.other rest

/-- The role expected at offset `n` of an alternation starting at `e`. -/
def roleAt (e : Role) (n : Nat) : Role :=
  if n % 2 = 0 then e else e.other

/-! ## App (`frontend/src/App.jsx`)

`App` renders `ResearchForm` while `step === 'research'` and the
`Visualization`/`ChatInterface` pair while `step === 'chat'`; the only
transition into `'chat'` is `handleResearchComplete`, called by
`ResearchForm` after `researchCompany` resolves successfully. -/

inductive UIStep where
  | research
  | chat
deriving DecidableEq, Repr

structure AppState where
  step : UIStep
  currentCompany : String
  vizData : Json

def appInit : AppState :=
  { step := UIStep.research, currentCompany := "", vizData := Json.jnull }

/-- Observable events of one `App` session.  `researchSuccess` is the
`handleResearchComplete` callback; `researchFailure` is the rejection path of
the research submission; `chatRequest` is `ChatInterface` issuing
`POST /chat/`; `startNew` is the `New Research` button. -/
inductive AppEvent where
  | researchSuccess (company : String) (data : Json)
  | researchFailure
  | chatRequest (company : String) (prompt : String)
  | startNew

/-- One event against the `App` state: `none` when the event cannot occur in
that state (its component is not rendered there).  Research submissions only
happen while `ResearchForm` is rendered (`step = research`); a failed one
only sets the form error, leaving `App` state unchanged; chat requests only
happen while `ChatInterface` is rendered (`step = chat`) and carry the
company the interface was rendered with (`company={currentCompany}` in
`App.jsx`, set by `handleResearchComplete`); `startNew` requires the header
button, shown only when `currentCompany` is nonempty. -/
def appStep (s : AppState) : AppEvent → Option AppState
  | AppEvent.researchSuccess c d =>
      if s.step = UIStep.research then
        some { step := UIStep.chat, currentCompany := c, vizData := d }
      else none
  | AppEvent.researchFailure =>
      if s.step = UIStep.research then some s else none
  | AppEvent.chatRequest c _ =>
      if s.step = UIStep.chat ∧ c = s.currentCompany then some s else none
  | AppEvent.startNew =>
      if s.currentCompany ≠ "" then some appInit else none

/-- Run a list of events, failing if any event is impossible in its state. -/
def validRun (s : AppState) : List AppEvent → Option AppState
  | [] => some s
  | e :: rest =>
      match appStep s e with
      | none => none
      | some s1 => validRun s1 rest

/-- Scanning from the front while accumulating the companies already
successfully researched (`done`), every `chatRequest` names a company whose
research already completed successfully earlier in the trace. -/
def chatRequestsCovered : List String → List AppEvent → Bool
  | _, [] => true
  | done, AppEvent.researchSuccess c _ :: rest => chatRequestsCovered (c :: done) rest
  | done, AppEvent.chatRequest c _ :: rest =>
      decide (c ∈ done) && chatRequestsCovered done rest
  | done, _ :: rest => chatRequestsCovered done rest

/-! ## Spec-modelled vector store and retrieval

The backend (`agents.py`, `services/ingestion.py`, `services/chat_service.py`)
is not among the sources; the per-company vector collection and the Chat
Engine retrieval are modelled from the spec (§3, §4.3, §4.5, §6). -/

/-- A stored Document: company namespace, dedup-key id, text content.  The
embedding is abstracted away; retrieval receives a similarity score per
Document instead. -/
structure Document where
  company_id : String
  id : String
  content : String
deriving DecidableEq, Repr

/-- Modelled from the spec: the vector store holds one collection per
company, keyed by company id as a namespace, never shared across companies. -/
structure VectorStore where
  collections : List (String × List Document)
deriving DecidableEq, Repr

def emptyStore : VectorStore := { collections := [] }

/-- The collection owned by `company` (empty if the company was never
indexed). -/
def getCollection (store : VectorStore) (company : String) : List Document :=
  match store.collections.find? (fun p => p.1 == company) with
  | some p => p.2
  | none => []

/-- Modelled from the spec: upsert-by-key — a Document with an already
present dedup-key overwrites, otherwise it is appended. -/
def upsertDoc (docs : List Document) (d : Document) : List Document :=
  if docs.any (fun x => x.id == d.id) then
    docs.map (fun x => if x.id == d.id then d else x)
  else docs ++ [d]

/-- Modelled from the spec: the Embedding & Indexing stage writes a Document
into the company-owned collection, tagged with that company id. -/
def indexDoc (store : VectorStore) (company : String) (d : Document) : VectorStore :=
  { collections :=
      store.collections.filter (fun p => p.1 != company) ++
        [(company, upsertDoc (getCollection store company) { d with company_id := company })] }

/-- A store built from a sequence of indexing operations, each writing one
Document under one company. -/
def buildStore (ops : List (String × Document)) : VectorStore :=
  ops.foldl (fun st p => indexDoc st p.1 p.2) emptyStore

def insertByScore (score : Document → Nat) (d : Document) :
    List Document → List Document
  | [] => [d]
  | x :: xs => if score x ≤ score d then d :: x :: xs else x :: insertByScore score d xs

def sortByScore (score : Document → Nat) : List Document → List Document
  | [] => []
  | x :: xs => insertByScore score x (sortByScore score xs)

/-- Modelled from the spec: the Chat Engine retrieval — top-k Documents by
similarity to the embedded question (abstracted as `score`), scoped strictly
to the company-owned collection. -/
def retrieve (store : VectorStore) (company : String) (score : Document → Nat)
    (k : Nat) : List Document :=
  (sortByScore score (getCollection store company)).take k

/-- Every collection of the store holds only Documents tagged with its own
company id. -/
def storeWF (store : VectorStore) : Prop :=
  ∀ c docs, (c, docs) ∈ store.collections → ∀ d ∈ docs, d.company_id = c

/-! ## Claim theorems -/

theorem dropWhile_eq_self_of_isPrefix {p : Char → Bool} {u v : List Char}
    (hpre : v <+: u) (hu : List.dropWhile p u = u) : List.dropWhile p v = v := by
  cases v with
  | nil => rfl
  | cons a t =>
    obtain ⟨w, hw⟩ := hpre
    have ha : p a = false := by
      subst hw
      rw [List.cons_append, List.dropWhile_cons] at hu
      by_contra hcon
      rw [if_pos (by simpa using hcon)] at hu
      have hlen := (List.dropWhile_sublist (l := t ++ w) p).length_le
      rw [hu] at hlen
      simp at hlen
    rw [List.dropWhile_cons, if_neg (by simp [ha])]

theorem jsTrim_idempotent (s : String) : jsTrim (jsTrim s) = jsTrim s := by
  unfold jsTrim
  have hdata : (String.mk (List.rdropWhile isJsWhitespace
      (List.dropWhile isJsWhitespace s.data))).data =
      List.rdropWhile isJsWhitespace (List.dropWhile isJsWhitespace s.data) := rfl
  rw [hdata]
  have h1 : List.dropWhile isJsWhitespace
      (List.rdropWhile isJsWhitespace (List.dropWhile isJsWhitespace s.data)) =
      List.rdropWhile isJsWhitespace (List.dropWhile isJsWhitespace s.data) :=
    dropWhile_eq_self_of_isPrefix ( List.rdropWhile_prefix _ _)
      (List.dropWhile_idempotent _ _)
  rw [h1, List.rdropWhile_idempotent]

/-- Claim C1 (counterexample): the claim says displayed stage-progress strings
are produced by real pipeline stage-progress events and never by a local
timer.  At the concrete state right after submitting the company "Tesla", one
firing of the local interval timer alone changes the displayed progress
string from "Initializing AI agents..." to the first entry of the local
`simulateProgress` list — no pipeline event is involved. -/
theorem progress_timer_counterexample :
    (progressTick (submitResearch { initialFormState with companyName := "Tesla" })).progress
      = "Searching for company data..." ∧
    (submitResearch { initialFormState with companyName := "Tesla" }).progress
      = "Initializing AI agents..." ∧
    ¬ (progressTick (submitResearch { initialFormState with companyName := "Tesla" })).progress
      = (submitResearch { initialFormState with companyName := "Tesla" }).progress := by
  decide

/-- Claim C1 (amended): during a research request the displayed stage-progress
strings are driven by a client-side interval timer stepping through the fixed
local `simulateProgress` list: whenever the timer is running and steps
remain, a tick displays the next list entry and advances the step counter,
independent of the pipeline. -/
theorem progress_driven_by_local_timer (s : FormState)
    (h1 : s.timerActive = true) (h2 : s.currentStep < simulateProgress.length) :
    (progressTick s).progress = simulateProgress.getD s.currentStep "" ∧
    (progressTick s).currentStep = s.currentStep + 1 := by
  unfold progressTick
  rw [if_pos ⟨by simp [h1], h2⟩]
  exact ⟨rfl, rfl⟩

/-- Claim C1 (witness): the amended theorem applied right after submitting
"Acme". -/
theorem progress_driven_by_local_timer_witness :
    (progressTick (submitResearch { initialFormState with companyName := "Acme" })).progress
      = simulateProgress.getD
          (submitResearch { initialFormState with companyName := "Acme" }).currentStep "" ∧
    (progressTick (submitResearch { initialFormState with companyName := "Acme" })).currentStep
      = (submitResearch { initialFormState with companyName := "Acme" }).currentStep + 1 :=
  progress_driven_by_local_timer _ (by decide) (by decide)

/-- A research response body of exactly the shape the claim assigns to
`POST /research/`: top-level `summary`, `sources_breakdown`, `total_sources`. -/
def specShapedResearchBody : Json :=
  Json.jobj
    [ ("summary", Json.jstr "Acme builds anvils.")
    , ("sources_breakdown", Json.jobj [("web", Json.jnum 3), ("news", Json.jnum 2)])
    , ("total_sources", Json.jnum 5) ]

/-- Claim C2 (counterexample): the claim says the object returned by
`researchCompany` is itself the record passed to the visualization.  But
`handleSubmit` passes `response.viz_data`: on a response whose top level is
exactly `{summary, sources_breakdown, total_sources}`, the visualization
receives `undefined`, not the response. -/
theorem viz_payload_counterexample :
    researchSuccessPayload specShapedResearchBody = Json.jundef ∧
    researchSuccessPayload specShapedResearchBody ≠ specShapedResearchBody := by
  constructor
  · rfl
  · intro h
    exact Json.noConfusion h

/-- Claim C2 (amended): the record rendered by the visualization is the
`viz_data` field of the response body, not the body itself; the
`{summary, …, total_sources}` record consumed by `Visualization` is nested
under `viz_data`.  When the body carries `viz_data := v`, the
`onResearchComplete` payload is exactly `v`, and `Visualization` reads its
displayed summary and total from `v`'s own fields. -/
theorem viz_payload_is_viz_data_field (v : Json) (rest : List (String × Json))
    (hv : v.truthy = true) :
    researchSuccessPayload (Json.jobj (("viz_data", v) :: rest)) = v ∧
    ∃ r, Visualization v = some r ∧
      r.summary = v.getField "summary" ∧
      r.total_sources = v.getField "total_sources" := by
  constructor
  · simp [researchSuccessPayload, Json.getField, List.lookup]
  · have hviz : Visualization v = some
        { summary := v.getField "summary"
          total_sources := v.getField "total_sources"
          chartData := (visualizationEntries (v.getField "sources_breakdown")).map
            (fun p => (capitalizeSB p.1, p.2))
          statsList := visualizationEntries (v.getField "sources_breakdown") } := by
      unfold Visualization
      rw [hv]
      simp
    exact ⟨_, hviz, rfl, rfl⟩

/-- Claim C2 (witness): the amended theorem at a concrete response body. -/
theorem viz_payload_is_viz_data_field_witness :
    researchSuccessPayload (Json.jobj [("viz_data", Json.jobj [("summary", Json.jstr "S")])])
      = Json.jobj [("summary", Json.jstr "S")] ∧
    ∃ r, Visualization (Json.jobj [("summary", Json.jstr "S")]) = some r ∧
      r.summary = (Json.jobj [("summary", Json.jstr "S")]).getField "summary" ∧
      r.total_sources = (Json.jobj [("summary", Json.jstr "S")]).getField "total_sources" :=
  viz_payload_is_viz_data_field (Json.jobj [("summary", Json.jstr "S")]) [] rfl

/-- Claim C3 (counterexample): the claim says the user-visible message for a
not-found chat failure differs from the one for dependency failures.  But the
`catch` block never inspects the error: from the same state, a not-found
failure and a dependency failure produce identical component states, and the
message shown is the fixed apology, not a "research this company first"
message. -/
theorem chat_failure_message_counterexample :
    finishChatSubmit (initialChatState "Acme") (Except.error ChatError.notFound)
      = finishChatSubmit (initialChatState "Acme") (Except.error ChatError.dependencyFailure) ∧
    (finishChatSubmit (initialChatState "Acme") (Except.error ChatError.notFound)).messages.getLast?
      = some { role := Role.assistant, content := apologyMessage } := by
  decide

/-- Claim C3 (amended): every failed chat call — not-found and dependency
failures alike — appends the same fixed apology message to the chat; the
client does not distinguish error kinds in the user-visible message. -/
theorem chat_failure_message_fixed (s : ChatState) (e : ChatError) :
    (finishChatSubmit s (Except.error e)).messages
      = s.messages ++ [{ role := Role.assistant, content := apologyMessage }] ∧
    (finishChatSubmit s (Except.error e)).loading = false :=
  ⟨rfl, rfl⟩

/-- Claim C7: `resetCompany(company_name)` issues a DELETE request to
`/reset/{company_name}` (the name interpolated into the path, so the request
pins down exactly which company is reset) and returns the acknowledgement
response body. -/
theorem reset_company_request (companyName : String) :
    (resetCompany companyName).method = HttpMethod.delete ∧
    (resetCompany companyName).path = "/reset/" ++ companyName ∧
    (∀ response : AxiosResponse, resetCompanyReturn response = response.data) ∧
    (∀ a b : String, resetCompany a = resetCompany b → a = b) := by
  refine ⟨rfl, rfl, fun _ => rfl, fun a b h => ?_⟩
  have hp : "/reset/" ++ a = "/reset/" ++ b := congrArg HttpRequest.path h
  have hd : ("/reset/" ++ a).data = ("/reset/" ++ b).data := congrArg String.data hp
  rw [String.data_append, String.data_append] at hd
  exact String.ext (List.append_cancel_left hd)

/-- Claim C7 (witness): the reset request for "OpenAI", and the injectivity
conjunct applied at a concrete pair. -/
theorem reset_company_request_witness :
    (resetCompany "OpenAI").path = "/reset/OpenAI" ∧ ("OpenAI" : String) = "OpenAI" :=
  ⟨((reset_company_request "OpenAI").2.1).trans rfl,
   (reset_company_request "OpenAI").2.2.2 "OpenAI" "OpenAI" rfl⟩

/-- Claim C10: `Visualization` is total on missing inputs: on `null` or
`undefined` data it renders nothing, and when `sources_breakdown` is absent
it is treated as an empty mapping, giving an empty chart data list and an
empty per-source stats list. -/
theorem visualization_total_on_missing :
    Visualization Json.jnull = none ∧
    Visualization Json.jundef = none ∧
    ∀ fields : List (String × Json), List.lookup "sources_breakdown" fields = none →
      Visualization (Json.jobj fields)
        = some { summary := (Json.jobj fields).getField "summary"
                 total_sources := (Json.jobj fields).getField "total_sources"
                 chartData := []
                 statsList := [] } := by
  refine ⟨rfl, rfl, fun fields h => ?_⟩
  simp [Visualization, Json.getField, Json.truthy, visualizationEntries, h]

/-- Claim C10 (witness): the absent-breakdown conjunct at a concrete data
object that has no `sources_breakdown` field. -/
theorem visualization_total_on_missing_witness :
    Visualization (Json.jobj [("summary", Json.jstr "S"), ("total_sources", Json.jnum 6)])
      = some { summary := (Json.jobj [("summary", Json.jstr "S"),
                 ("total_sources", Json.jnum 6)]).getField "summary"
               total_sources := (Json.jobj [("summary", Json.jstr "S"),
                 ("total_sources", Json.jnum 6)]).getField "total_sources"
               chartData := []
               statsList := [] } :=
  visualization_total_on_missing.2.2 _ rfl

/-- Claim C4: every chat submission sends `POST /chat/` whose body has
exactly the fields `company_name` and `prompt` (the `ChatRequestBody` type
embeds the object literal of `sendChatMessage`, which carries no history),
and the request issued by a submission is independent of the message list:
two states agreeing on the input field and the loading flag issue the same
request, whatever prior turns their message lists hold. -/
theorem chat_request_stateless (company prompt : String) (s1 s2 : ChatState)
    (hin : s1.input = s2.input) (hld : s1.loading = s2.loading) :
    sendChatMessage company prompt
      = { method := HttpMethod.post
          path := "/chat/"
          body := { company_name := company, prompt := prompt } } ∧
    (startChatSubmit s1 company).2 = (startChatSubmit s2 company).2 := by
  refine ⟨rfl, ?_⟩
  unfold startChatSubmit
  rw [hin, hld]
  by_cases h : jsTrim s2.input = "" ∨ s2.loading = true
  · rw [if_pos h, if_pos h]
  · rw [if_neg h, if_neg h]

/-- Claim C4 (witness): a state holding a prior user/assistant exchange and a
state holding only the greeting, with the same pending input, issue the same
request. -/
theorem chat_request_stateless_witness :
    sendChatMessage "Acme" "q"
      = { method := HttpMethod.post
          path := "/chat/"
          body := { company_name := "Acme", prompt := "q" } } ∧
    (startChatSubmit
        { messages := [chatGreeting "Acme",
            { role := Role.user, content := "prior question" },
            { role := Role.assistant, content := "prior answer" }]
          input := "next question", loading := false } "Acme").2
      = (startChatSubmit
          { messages := [chatGreeting "Acme"]
            input := "next question", loading := false } "Acme").2 :=
  chat_request_stateless "Acme" "q" _ _ rfl rfl

/-- Claim C9: submitting the chat form with a whitespace-only input, or while
a previous request is in flight (`loading`), sends no request and leaves the
whole chat state unchanged; and when a request is issued, the loading flag
was false and is set true (so at most one request is in flight), and the
prompt sent is the trimmed input — already trimmed and nonempty, hence never
whitespace-only. -/
theorem chat_submit_guard_frame (s : ChatState) (company : String)
    (result : Except ChatError ChatResponse) :
    ((jsTrim s.input = "" ∨ s.loading = true) →
        completeChatSubmit s company result = (s, none)) ∧
    (∀ s1 req, startChatSubmit s company = (s1, some req) →
        s.loading = false ∧ s1.loading = true ∧
        req = sendChatMessage company (jsTrim s.input) ∧
        jsTrim req.body.prompt = req.body.prompt ∧ req.body.prompt ≠ "") := by
  constructor
  · intro hg
    unfold completeChatSubmit startChatSubmit
    rw [if_pos hg]
  · intro s1 req heq
    unfold startChatSubmit at heq
    by_cases hg : jsTrim s.input = "" ∨ s.loading = true
    · rw [if_pos hg] at heq
      exact absurd (congrArg Prod.snd heq) (by simp)
    · rw [if_neg hg] at heq
      push_neg at hg
      obtain ⟨hne, hld⟩ := hg
      have h1 : ({ messages := s.messages ++ [{ role := Role.user, content := jsTrim s.input }]
                   input := ""
                   loading := true } : ChatState) = s1 := congrArg Prod.fst heq
      have h2 : some (sendChatMessage company (jsTrim s.input)) = some req :=
        congrArg Prod.snd heq
      have hreq : req = sendChatMessage company (jsTrim s.input) :=
        (Option.some.injEq _ _ ▸ h2).symm
      refine ⟨by simpa using hld, ?_, hreq, ?_, ?_⟩
      · rw [← h1]
      · rw [hreq]
        exact jsTrim_idempotent s.input
      · rw [hreq]
        exact hne

/-- Claim C9 (witness): the frame conjunct at a whitespace-only input, and
the issuance conjunct at a concrete submission of "  hi  ". -/
theorem chat_submit_guard_frame_witness :
    completeChatSubmit { messages := [chatGreeting "Acme"], input := "   ", loading := false }
        "Acme" (Except.ok { response := "ok" })
      = ({ messages := [chatGreeting "Acme"], input := "   ", loading := false }, none) ∧
    (({ messages := [chatGreeting "Acme"], input := "  hi  ", loading := false } : ChatState).loading
        = false ∧
      ({ messages := [chatGreeting "Acme"] ++ [{ role := Role.user, content := "hi" }]
         input := "", loading := true } : ChatState).loading = true ∧
      sendChatMessage "Acme" "hi"
        = sendChatMessage "Acme"
            (jsTrim ({ messages := [chatGreeting "Acme"], input := "  hi  ",
                       loading := false } : ChatState).input) ∧
      jsTrim (sendChatMessage "Acme" "hi").body.prompt = (sendChatMessage "Acme" "hi").body.prompt ∧
      (sendChatMessage "Acme" "hi").body.prompt ≠ "") :=
  ⟨(chat_submit_guard_frame _ "Acme" _).1 (Or.inl (by decide)),
   (chat_submit_guard_frame
      { messages := [chatGreeting "Acme"], input := "  hi  ", loading := false } "Acme"
      (Except.ok { response := "ok" })).2
     { messages := [chatGreeting "Acme"] ++ [{ role := Role.user, content := "hi" }]
       input := "", loading := true }
     (sendChatMessage "Acme" "hi") (by decide)⟩

theorem validRun_covered :
    ∀ (evs : List AppEvent) (s s' : AppState) (done : List String),
      (s.step = UIStep.research ∨
        (s.step = UIStep.chat ∧ s.currentCompany ∈ done)) →
      validRun s evs = some s' → chatRequestsCovered done evs = true := by
  intro evs
  induction evs with
  | nil => intro s s' done _ _; rfl
  | cons e rest ih =>
    intro s s' done hP hrun
    cases e with
    | researchSuccess c d =>
        by_cases hs : s.step = UIStep.research
        · have happ : appStep s (AppEvent.researchSuccess c d)
              = some { step := UIStep.chat, currentCompany := c, vizData := d } := by
            simp [appStep, hs]
          simp only [validRun, happ] at hrun
          have hnext := ih _ s' (c :: done)
            (Or.inr ⟨rfl, List.mem_cons_self _ _⟩) hrun
          simpa [chatRequestsCovered] using hnext
        · have happ : appStep s (AppEvent.researchSuccess c d) = none := by
            simp [appStep, hs]
          simp only [validRun, happ] at hrun
          exact absurd hrun (by simp)
    | researchFailure =>
        by_cases hs : s.step = UIStep.research
        · have happ : appStep s AppEvent.researchFailure = some s := by
            simp [appStep, hs]
          simp only [validRun, happ] at hrun
          simpa [chatRequestsCovered] using ih s s' done hP hrun
        · have happ : appStep s AppEvent.researchFailure = none := by
            simp [appStep, hs]
          simp only [validRun, happ] at hrun
          exact absurd hrun (by simp)
    | chatRequest c p =>
        by_cases hs : s.step = UIStep.chat ∧ c = s.currentCompany
        · have happ : appStep s (AppEvent.chatRequest c p) = some s := by
            show (if s.step = UIStep.chat ∧ c = s.currentCompany then some s else none)
              = some s
            rw [if_pos hs]
          simp only [validRun, happ] at hrun
          rcases hP with hres | ⟨hchat, hdone⟩
          · rw [hres] at hs
            exact absurd hs.1 (by simp)
          · have hc : c ∈ done := hs.2 ▸ hdone
            have hnext := ih s s' done (Or.inr ⟨hchat, hdone⟩) hrun
            simpa [chatRequestsCovered, hc] using hnext
        · have happ : appStep s (AppEvent.chatRequest c p) = none := by
            show (if s.step = UIStep.chat ∧ c = s.currentCompany then some s else none)
              = none
            rw [if_neg hs]
          simp only [validRun, happ] at hrun
          exact absurd hrun (by simp)
    | startNew =>
        by_cases hc : s.currentCompany = ""
        · have happ : appStep s AppEvent.startNew = none := by
            simp [appStep, hc]
          simp only [validRun, happ] at hrun
          exact absurd hrun (by simp)
        · have happ : appStep s AppEvent.startNew = some appInit := by
            simp [appStep, hc]
          simp only [validRun, happ] at hrun
          simpa [chatRequestsCovered] using ih appInit s' done (Or.inl rfl) hrun

theorem covered_imp_success :
    ∀ (evs : List AppEvent) (done : List String),
      chatRequestsCovered done evs = true →
      ∀ c p, AppEvent.chatRequest c p ∈ evs →
        c ∈ done ∨ ∃ d, AppEvent.researchSuccess c d ∈ evs := by
  intro evs
  induction evs with
  | nil => intro done _ c p hmem; exact absurd hmem (List.not_mem_nil _)
  | cons e rest ih =>
    intro done h c p hmem
    cases e with
    | researchSuccess c2 d2 =>
        have h' : chatRequestsCovered (c2 :: done) rest = true := by
          simpa [chatRequestsCovered] using h
        rcases List.mem_cons.mp hmem with h1 | h1
        · exact absurd h1 (by simp)
        · rcases ih (c2 :: done) h' c p h1 with h2 | ⟨d, hd⟩
          · rcases List.mem_cons.mp h2 with h3 | h3
            · exact Or.inr ⟨d2, by rw [h3]; exact List.mem_cons_self _ _⟩
            · exact Or.inl h3
          · exact Or.inr ⟨d, List.mem_cons_of_mem _ hd⟩
    | researchFailure =>
        rcases List.mem_cons.mp hmem with h1 | h1
        · exact absurd h1 (by simp)
        · rcases ih done (by simpa [chatRequestsCovered] using h) c p h1 with h2 | ⟨d, hd⟩
          · exact Or.inl h2
          · exact Or.inr ⟨d, List.mem_cons_of_mem _ hd⟩
    | chatRequest c2 p2 =>
        have h' : c2 ∈ done ∧ chatRequestsCovered done rest = true := by
          simpa [chatRequestsCovered] using h
        rcases List.mem_cons.mp hmem with h1 | h1
        · have hc2 : c = c2 := by
            injection h1
          exact Or.inl (hc2 ▸ h'.1)
        · rcases ih done h'.2 c p h1 with h2 | ⟨d, hd⟩
          · exact Or.inl h2
          · exact Or.inr ⟨d, List.mem_cons_of_mem _ hd⟩
    | startNew =>
        rcases List.mem_cons.mp hmem with h1 | h1
        · exact absurd h1 (by simp)
        · rcases ih done (by simpa [chatRequestsCovered] using h) c p h1 with h2 | ⟨d, hd⟩
          · exact Or.inl h2
          · exact Or.inr ⟨d, List.mem_cons_of_mem _ hd⟩

/-- Claim C6: in every valid run of the `App` from its initial state, a chat
request for a company is issued only after a research request for that same
company completed successfully: each `chatRequest` names a company whose
`researchSuccess` occurred earlier in the trace (the chat interface is
reachable solely through the research-complete transition and is rendered
with the successfully researched `currentCompany`), and a failed research
request leaves the app in the research step, its state unchanged, with no
chat request issued. -/
theorem chat_only_after_research_success (evs : List AppEvent) (s' : AppState)
    (h : validRun appInit evs = some s') :
    chatRequestsCovered [] evs = true ∧
    (∀ c p, AppEvent.chatRequest c p ∈ evs →
       ∃ d, AppEvent.researchSuccess c d ∈ evs) ∧
    validRun appInit [AppEvent.researchFailure] = some appInit := by
  have h1 := validRun_covered evs appInit s' [] (Or.inl rfl) h
  refine ⟨h1, fun c p hmem => ?_, rfl⟩
  rcases covered_imp_success evs [] h1 c p hmem with h2 | h2
  · exact absurd h2 (List.not_mem_nil _)
  · exact h2

/-- Claim C6 (witness): the theorem applied to the concrete valid run in
which research on "Acme" completes successfully and a chat request for
"Acme" follows. -/
theorem chat_only_after_research_success_witness :
    chatRequestsCovered []
        [AppEvent.researchSuccess "Acme" Json.jnull,
         AppEvent.chatRequest "Acme" "What products does Acme sell?"] = true ∧
    (∀ c p, AppEvent.chatRequest c p ∈
        [AppEvent.researchSuccess "Acme" Json.jnull,
         AppEvent.chatRequest "Acme" "What products does Acme sell?"] →
       ∃ d, AppEvent.researchSuccess c d ∈
        [AppEvent.researchSuccess "Acme" Json.jnull,
         AppEvent.chatRequest "Acme" "What products does Acme sell?"]) ∧
    validRun appInit [AppEvent.researchFailure] = some appInit :=
  chat_only_after_research_success _
    { step := UIStep.chat, currentCompany := "Acme", vizData := Json.jnull } rfl

theorem mem_insertByScore {score : Document → Nat} {d y : Document} :
    ∀ {l : List Document}, y ∈ insertByScore score d l → y = d ∨ y ∈ l := by
  intro l
  induction l with
  | nil =>
    intro h
    simp only [insertByScore] at h
    exact Or.inl (by simpa using h)
  | cons x xs ih =>
    intro h
    simp only [insertByScore] at h
    by_cases hc : score x ≤ score d
    · rw [if_pos hc] at h
      rcases List.mem_cons.mp h with h1 | h1
      · exact Or.inl h1
      · exact Or.inr h1
    · rw [if_neg hc] at h
      rcases List.mem_cons.mp h with h1 | h1
      · exact Or.inr (by simp [h1])
      · rcases ih h1 with h2 | h2
        · exact Or.inl h2
        · exact Or.inr (List.mem_cons_of_mem _ h2)

theorem mem_sortByScore {score : Document → Nat} {y : Document} :
    ∀ {l : List Document}, y ∈ sortByScore score l → y ∈ l := by
  intro l
  induction l with
  | nil => intro h; simp [sortByScore] at h
  | cons x xs ih =>
    intro h
    simp only [sortByScore] at h
    rcases mem_insertByScore h with h1 | h1
    · simp [h1]
    · exact List.mem_cons_of_mem _ (ih h1)

theorem mem_upsertDoc {docs : List Document} {t y : Document}
    (h : y ∈ upsertDoc docs t) : y ∈ docs ∨ y = t := by
  unfold upsertDoc at h
  by_cases hc : docs.any (fun x => x.id == t.id) = true
  · rw [if_pos hc] at h
    obtain ⟨x, hx, hxy⟩ := List.mem_map.mp h
    by_cases hid : (x.id == t.id) = true
    · rw [if_pos hid] at hxy
      exact Or.inr hxy.symm
    · rw [if_neg hid] at hxy
      exact Or.inl (hxy ▸ hx)
  · rw [if_neg hc] at h
    rcases List.mem_append.mp h with h1 | h1
    · exact Or.inl h1
    · exact Or.inr (by simpa using h1)

theorem getCollection_wf {store : VectorStore} (hwf : storeWF store) (c : String)
    {d : Document} (hd : d ∈ getCollection store c) : d.company_id = c := by
  unfold getCollection at hd
  cases hfind : store.collections.find? (fun p => p.1 == c) with
  | none => rw [hfind] at hd; simp at hd
  | some p =>
      rw [hfind] at hd
      have hmem := List.mem_of_find?_eq_some hfind
      have hpc := List.find?_some hfind
      have hp1 : p.1 = c := by simpa using hpc
      exact hp1 ▸ hwf p.1 p.2 (by simpa using hmem) d hd

theorem storeWF_indexDoc {store : VectorStore} (hwf : storeWF store)
    (company : String) (d : Document) : storeWF (indexDoc store company d) := by
  intro c docs hmem d' hd'
  unfold indexDoc at hmem
  simp only at hmem
  rcases List.mem_append.mp hmem with h1 | h1
  · exact hwf c docs (List.mem_of_mem_filter h1) d' hd'
  · have h2 : (c, docs)
        = (company, upsertDoc (getCollection store company) { d with company_id := company }) := by
      simpa using h1
    have hc : c = company := (Prod.mk.injEq _ _ _ _ ▸ h2).1
    have hdocs : docs
        = upsertDoc (getCollection store company) { d with company_id := company } :=
      (Prod.mk.injEq _ _ _ _ ▸ h2).2
    rw [hdocs] at hd'
    rcases mem_upsertDoc hd' with h3 | h3
    · rw [hc]
      exact getCollection_wf hwf company h3
    · rw [h3, hc]

theorem storeWF_buildStore (ops : List (String × Document)) :
    storeWF (buildStore ops) := by
  unfold buildStore
  have hgen : ∀ (l : List (String × Document)) (st : VectorStore), storeWF st →
      storeWF (l.foldl (fun st p => indexDoc st p.1 p.2) st) := by
    intro l
    induction l with
    | nil => intro st h; exact h
    | cons p rest ih =>
        intro st h
        exact ih _ (storeWF_indexDoc h p.1 p.2)
  exact hgen ops emptyStore (by intro c docs hmem; exact absurd hmem (List.not_mem_nil _))

/-- Claim C5: namespace isolation of the modelled Chat Engine retrieval — in
any store built by indexing operations, every Document retrieved for company
A carries A's namespace tag and lies outside B's collection for every other
company B; no Document indexed under B is ever returned for A, whatever the
similarity scores (shared vocabulary included). -/
theorem namespace_isolation (ops : List (String × Document)) (A B : String)
    (hAB : A ≠ B) (score : Document → Nat) (k : Nat) (d : Document)
    (hd : d ∈ retrieve (buildStore ops) A score k) :
    d.company_id = A ∧ d ∉ getCollection (buildStore ops) B := by
  have hcoll : d ∈ getCollection (buildStore ops) A := by
    unfold retrieve at hd
    exact mem_sortByScore (List.mem_of_mem_take hd)
  have hA : d.company_id = A := getCollection_wf (storeWF_buildStore ops) A hcoll
  refine ⟨hA, fun hB => ?_⟩
  have hBid : d.company_id = B := getCollection_wf (storeWF_buildStore ops) B hB
  exact hAB (hA.symm.trans hBid)

/-- Claim C5 (witness): a store holding one document for company "A" and one
for company "B"; the document retrieved for "A" is tagged "A" and absent
from "B"'s collection. -/
theorem namespace_isolation_witness :
    ({ company_id := "A", id := "a1", content := "alpha widgets" } : Document).company_id
      = "A" ∧
    ({ company_id := "A", id := "a1", content := "alpha widgets" } : Document) ∉
      getCollection
        (buildStore
          [("A", { company_id := "", id := "a1", content := "alpha widgets" }),
           ("B", { company_id := "", id := "b1", content := "alpha gadgets" })]) "B" :=
  namespace_isolation
    [("A", { company_id := "", id := "a1", content := "alpha widgets" }),
     ("B", { company_id := "", id := "b1", content := "alpha gadgets" })]
    "A" "B" (by decide) (fun _ => 0) 5
    { company_id := "A", id := "a1", content := "alpha widgets" } (by decide)

theorem Role.other_other (e : Role) : e.other.other = e := by
  cases e <;> rfl

theorem roleAt_succ (e : Role) (n : Nat) : roleAt e (n + 1) = roleAt e.other n := by
  unfold roleAt
  rcases Nat.mod_two_eq_zero_or_one n with h | h
  · have h1 : (n + 1) % 2 = 1 := by omega
    rw [h, h1]
    simp
  · have h1 : (n + 1) % 2 = 0 := by omega
    rw [h, h1]
    simp [Role.other_other]

theorem altFrom_append (xs : List ChatMessage) :
    ∀ (e : Role) (ys : List ChatMessage),
      altFrom e (xs ++ ys) = (altFrom e xs && altFrom (roleAt e xs.length) ys) := by
  induction xs with
  | nil =>
    intro e ys
    simp [altFrom, roleAt]
  | cons m xs ih =>
    intro e ys
    rw [List.cons_append]
    simp only [altFrom, List.length_cons]
    rw [ih e.other ys, roleAt_succ, Bool.and_assoc]

theorem chat_invariant_step (company typed : String) (s : ChatState)
    (result : Except ChatError ChatResponse)
    (h0 : s.messages.head? = some (chatGreeting company))
    (h1 : altFrom Role.assistant s.messages = true)
    (h2 : s.messages.length % 2 = 1) :
    (completeChatSubmit { s with input := typed } company result).1.messages.head?
        = some (chatGreeting company) ∧
    altFrom Role.assistant
        (completeChatSubmit { s with input := typed } company result).1.messages = true ∧
    (completeChatSubmit { s with input := typed } company result).1.messages.length % 2
        = 1 := by
  by_cases hg : jsTrim typed = "" ∨ s.loading = true
  · have hcs : completeChatSubmit { s with input := typed } company result
        = ({ s with input := typed }, none) := by
      unfold completeChatSubmit startChatSubmit
      rw [if_pos hg]
    rw [hcs]
    exact ⟨h0, h1, h2⟩
  · have hcs : (completeChatSubmit { s with input := typed } company result).1.messages
        = s.messages ++
          [{ role := Role.user, content := jsTrim typed },
           { role := Role.assistant,
             content := match result with
                        | Except.ok r => r.response
                        | Except.error _ => apologyMessage }] := by
      unfold completeChatSubmit startChatSubmit finishChatSubmit
      rw [if_neg hg]
      simp
    rw [hcs]
    obtain ⟨g, tl, hgt⟩ : ∃ g tl, s.messages = g :: tl := by
      cases hms : s.messages with
      | nil => rw [hms] at h0; exact absurd h0 (by simp)
      | cons g tl => exact ⟨g, tl, rfl⟩
    have hghead : g = chatGreeting company := by
      rw [hgt] at h0
      simpa using h0
    refine ⟨?_, ?_, ?_⟩
    · rw [hgt, List.cons_append]
      simpa using hghead
    · rw [altFrom_append, h1]
      have hrole : roleAt Role.assistant s.messages.length = Role.user := by
        unfold roleAt
        rw [h2]
        rfl
      rw [hrole]
      rfl
    · rw [List.length_append]
      simp only [List.length_cons, List.length_nil]
      omega

theorem runChat_invariant (company : String) :
    ∀ (steps : List (String × Except ChatError ChatResponse)) (s : ChatState),
      s.messages.head? = some (chatGreeting company) →
      altFrom Role.assistant s.messages = true →
      s.messages.length % 2 = 1 →
      (runChat company s steps).messages.head? = some (chatGreeting company) ∧
      altFrom Role.assistant (runChat company s steps).messages = true ∧
      (runChat company s steps).messages.length % 2 = 1 := by
  intro steps
  induction steps with
  | nil => intro s h0 h1 h2; exact ⟨h0, h1, h2⟩
  | cons step rest ih =>
    intro s h0 h1 h2
    obtain ⟨typed, result⟩ := step
    have hstep := chat_invariant_step company typed s result h0 h1 h2
    simpa [runChat] using ih _ hstep.1 hstep.2.1 hstep.2.2

/-- Claim C8: starting from the seeded greeting, after any sequence of
completed chat submissions the message list still begins with the assistant
greeting, alternates roles from the assistant onward, and has odd length;
and each completed submission either leaves the list unchanged (guard hit)
or appends exactly one user message followed by one assistant message. -/
theorem chat_messages_invariant (company : String)
    (steps : List (String × Except ChatError ChatResponse)) :
    (runChat company (initialChatState company) steps).messages.head?
        = some (chatGreeting company) ∧
    altFrom Role.assistant (runChat company (initialChatState company) steps).messages
        = true ∧
    (runChat company (initialChatState company) steps).messages.length % 2 = 1 ∧
    ∀ (s : ChatState) (result : Except ChatError ChatResponse),
      (completeChatSubmit s company result).1.messages = s.messages ∨
      ∃ u a, (completeChatSubmit s company result).1.messages
        = s.messages ++ [{ role := Role.user, content := u },
                         { role := Role.assistant, content := a }] := by
  have hinv := runChat_invariant company steps (initialChatState company) rfl rfl rfl
  refine ⟨hinv.1, hinv.2.1, hinv.2.2, fun s result => ?_⟩
  by_cases hg : jsTrim s.input = "" ∨ s.loading = true
  · left
    unfold completeChatSubmit startChatSubmit
    rw [if_pos hg]
  · right
    refine ⟨jsTrim s.input,
      (match result with
       | Except.ok r => r.response
       | Except.error _ => apologyMessage), ?_⟩
    unfold completeChatSubmit startChatSubmit finishChatSubmit
    rw [if_neg hg]
    simp

end Insightflow
